import Mathlib

/-!
Verification of the alexandria3k USPTO/CSV data-source layer against its
design specification.  The Lean definitions below are shallow embeddings of
the Python code in `src/alexandria3k/file_xml_cache.py`,
`src/alexandria3k/data_sources/uspto.py` and `src/alexandria3k/csv_sources.py`.
The XML parser (`xml.etree.ElementTree.fromstring`) is external to the core
and is abstracted as a function `parse : String → τ` over an arbitrary
document-tree type `τ`.
-/

namespace Alexandria3k

/-! ## Document cache (`file_xml_cache.py`) -/

/-- State of a `FileCache` object: the `cached_id` / `cached_data` slot pair
(initialised to `None` in `__init__`) and the parse counter
(`FileCache.parse_counter`, incremented on every miss). -/
structure FileCache (τ : Type) where
  cached_id : Option Nat
  cached_data : Option τ
  parse_counter : Nat
  deriving DecidableEq

/-- `FileCache.__init__`: an empty cache slot with the counter at 0. -/
def FileCache.init (τ : Type) : FileCache τ :=
  { cached_id := none, cached_data := none, parse_counter := 0 }

/-- `FileCache.read(self, xml_chunk, container_id)`: on a hit
(`container_id == self.cached_id`) return the cached tree unchanged;
on a miss parse the chunk, replace the cached id/tree pair and increment
the parse counter.  The returned tree is `Option τ` because the Python
attribute `cached_data` starts out as `None`. -/
def FileCache.read {τ : Type} (parse : String → τ) (c : FileCache τ)
    (xml_chunk : String) (container_id : Nat) : Option τ × FileCache τ :=
  if some container_id = c.cached_id then
    (c.cached_data, c)
  else
    let t := parse xml_chunk
    (some t,
      { cached_id := some container_id, cached_data := some t,
        parse_counter := c.parse_counter + 1 })

/-- C1.  Document cache correctness: after any `read` call the slot is keyed
by the requested id; a follow-up call with the same id returns the identical
tree and leaves the whole cache state (hence the parse counter) unchanged;
a call with any other id parses the supplied bytes, replaces the id/tree
pair, increments the parse counter by exactly one and returns the new tree. -/
theorem fileCache_read_correct {τ : Type} (parse : String → τ)
    (c : FileCache τ) (x : String) (i : Nat) :
    ((FileCache.read parse c x i).2.cached_id = some i) ∧
    (∀ x2, FileCache.read parse (FileCache.read parse c x i).2 x2 i =
      ((FileCache.read parse c x i).1, (FileCache.read parse c x i).2)) ∧
    (∀ j x2, j ≠ i →
      FileCache.read parse (FileCache.read parse c x i).2 x2 j =
        (some (parse x2),
          { cached_id := some j, cached_data := some (parse x2),
            parse_counter :=
              (FileCache.read parse c x i).2.parse_counter + 1 })) := by
  refine ⟨?_, ?_, ?_⟩
  · by_cases h : some i = c.cached_id <;> simp [FileCache.read, h]
  · intro x2
    by_cases h : some i = c.cached_id <;> simp [FileCache.read, h]
  · intro j x2 hj
    by_cases h : some i = c.cached_id
    · simp [FileCache.read, ← h, hj]
    · simp [FileCache.read, h, hj]

/-- Witness for C1: concrete two-call sequence on an initially empty cache. -/
theorem fileCache_read_correct_witness :
    FileCache.read String.length
        (FileCache.read String.length (FileCache.init Nat) "ab" 0).2 "xyz" 1 =
      (some 3,
        { cached_id := some 1, cached_data := some 3, parse_counter := 2 }) := by
  have h := (fileCache_read_correct String.length (FileCache.init Nat) "ab" 0).2.2
    1 "xyz" (by decide)
  exact h

/-! ## Child-entity cursor (`PatentsElementsCursor` in uspto.py) -/

/-- Python truthiness of the `elements` attribute as tested by
`if not self.elements:`: both `None` and the empty list are falsy. -/
def pyFalsy {E : Type} : Option (List E) → Bool
  | none => true
  | some [] => true
  | some (_ :: _) => false

@[simp] theorem pyFalsy_none {E : Type} :
    pyFalsy (none : Option (List E)) = true := rfl

@[simp] theorem pyFalsy_nil {E : Type} :
    pyFalsy (some ([] : List E)) = true := rfl

@[simp] theorem pyFalsy_cons {E : Type} (e : E) (es : List E) :
    pyFalsy (some (e :: es)) = false := rfl

/-- Result state of a child-entity cursor after a `Next()` call.  The parent
cursor is embedded as the list of its remaining rows (`head` = current row,
`Eof()` ⇔ the list is empty, `Next()` = dropping the head), which is faithful
for any parent cursor enumerating a fixed row sequence. -/
structure ElementsCursorState (P E : Type) where
  parentRows : List P
  elements : Option (List E)
  element_index : Int
  eof : Bool
  deriving DecidableEq

/-- `PatentsElementsCursor.Next(self)` (uspto.py lines 239-259): the
`while True` loop over the parent cursor.  `extract` is the configured
`extract_multiple` function applied to the parent's current row. -/
def patentsElementsNext {P E : Type} (extract : P → List E) :
    List P → Option (List E) → Int → ElementsCursorState P E
  | [], els, idx => ⟨[], els, idx, true⟩
  | p :: rest, els, idx =>
    let els1 := if pyFalsy els then some (extract p) else els
    let idx1 : Int := if pyFalsy els then -1 else idx
    if pyFalsy els1 then
      patentsElementsNext extract rest none idx1
    else
      if idx1 + 1 < ((els1.getD []).length : Int) then
        ⟨p :: rest, els1, idx1 + 1, false⟩
      else
        patentsElementsNext extract rest none idx1

/-- `Next()` on a full cursor state. -/
def ElementsCursorState.Next {P E : Type} (extract : P → List E)
    (s : ElementsCursorState P E) : ElementsCursorState P E :=
  patentsElementsNext extract s.parentRows s.elements s.element_index

/-- Branch reduction: parent exhausted. -/
theorem patentsElementsNext_nil {P E : Type} (extract : P → List E)
    (els : Option (List E)) (idx : Int) :
    patentsElementsNext extract [] els idx = ⟨[], els, idx, true⟩ := rfl

/-- Branch reduction: no element list held and the current parent row
extracts an empty list — the parent row is skipped. -/
theorem patentsElementsNext_skip {P E : Type} (extract : P → List E)
    {p : P} (rest : List P) {els : Option (List E)} (idx : Int)
    (hf : pyFalsy els = true) (hex : extract p = []) :
    patentsElementsNext extract (p :: rest) els idx =
      patentsElementsNext extract rest none (-1) := by
  simp only [patentsElementsNext, hf, if_true, hex, pyFalsy_nil]

/-- Branch reduction: no element list held and the current parent row
extracts a non-empty list — its first element is exposed at index 0. -/
theorem patentsElementsNext_fresh {P E : Type} (extract : P → List E)
    {p : P} (rest : List P) {els : Option (List E)} (idx : Int)
    (hf : pyFalsy els = true) (hex : extract p ≠ []) :
    patentsElementsNext extract (p :: rest) els idx =
      ⟨p :: rest, some (extract p), 0, false⟩ := by
  cases h : extract p with
  | nil => exact absurd h hex
  | cons e es =>
    simp only [patentsElementsNext, hf, if_true, h, pyFalsy_cons,
      Bool.false_eq_true, if_false, Option.getD_some]
    rw [if_pos (by simp)]
    norm_num

/-- Branch reduction: a non-empty element list is held and more elements
remain — the index advances by one. -/
theorem patentsElementsNext_step {P E : Type} (extract : P → List E)
    {p : P} (rest : List P) {e : E} {es : List E} (idx : Int)
    (hlt : idx + 1 < ((e :: es).length : Int)) :
    patentsElementsNext extract (p :: rest) (some (e :: es)) idx =
      ⟨p :: rest, some (e :: es), idx + 1, false⟩ := by
  simp only [patentsElementsNext, pyFalsy_cons, Bool.false_eq_true, if_false,
    Option.getD_some]
  rw [if_pos hlt]

/-- Branch reduction: a non-empty element list is held and it is used up —
the parent advances and the list is cleared. -/
theorem patentsElementsNext_exhausted {P E : Type} (extract : P → List E)
    {p : P} (rest : List P) {e : E} {es : List E} (idx : Int)
    (hge : ¬ idx + 1 < ((e :: es).length : Int)) :
    patentsElementsNext extract (p :: rest) (some (e :: es)) idx =
      patentsElementsNext extract rest none idx := by
  simp only [patentsElementsNext, pyFalsy_cons, Bool.false_eq_true, if_false,
    Option.getD_some]
  rw [if_neg hge]

/-- C2.  Child-skip invariant.  First part: starting from any state whose
`elements` slot is falsy or whose element index is non-negative (all
reachable states are such), a `Next()` that does not end at Eof leaves a
non-empty element list with `0 ≤ element_index < length`.  Second part:
a run of parent rows whose extraction is empty is skipped in a single
`Next()`, which lands on the first element of the next non-empty parent row
with element index 0 (so empty parents contribute zero rows). -/
theorem patentsElementsCursor_next_correct {P E : Type} (extract : P → List E) :
    (∀ (ps : List P) (els : Option (List E)) (idx : Int),
      (pyFalsy els = true ∨ 0 ≤ idx) →
      (patentsElementsNext extract ps els idx).eof = false →
      ∃ l, (patentsElementsNext extract ps els idx).elements = some l ∧
        l ≠ [] ∧ 0 ≤ (patentsElementsNext extract ps els idx).element_index ∧
        (patentsElementsNext extract ps els idx).element_index < (l.length : Int))
    ∧
    (∀ (emptyPs : List P) (p : P) (rest : List P) (idx : Int),
      (∀ q ∈ emptyPs, extract q = []) → extract p ≠ [] →
      patentsElementsNext extract (emptyPs ++ p :: rest) none idx =
        ⟨p :: rest, some (extract p), 0, false⟩) := by
  constructor
  · intro ps
    induction ps with
    | nil =>
      intro els idx _ habs
      simp [patentsElementsNext] at habs
    | cons p rest ih =>
      intro els idx hinv heof
      by_cases hf : pyFalsy els = true
      · by_cases hex : extract p = []
        · rw [patentsElementsNext_skip extract rest idx hf hex] at heof ⊢
          exact ih none (-1) (Or.inl rfl) heof
        · rw [patentsElementsNext_fresh extract rest idx hf hex] at heof ⊢
          refine ⟨extract p, rfl, hex, by simp, ?_⟩
          simp only
          have : 0 < (extract p).length := List.length_pos.mpr hex
          omega
      · have hfv : pyFalsy els = false := by simpa using hf
        cases els with
        | none => simp [pyFalsy] at hfv
        | some l =>
          cases l with
          | nil => simp [pyFalsy] at hfv
          | cons e es =>
            have hidx : 0 ≤ idx := by
              rcases hinv with h | h
              · rw [h] at hfv; cases hfv
              · exact h
            by_cases hlt : idx + 1 < ((e :: es).length : Int)
            · rw [patentsElementsNext_step extract rest idx hlt] at heof ⊢
              exact ⟨e :: es, rfl, by simp, by simp only; omega, by simpa using hlt⟩
            · rw [patentsElementsNext_exhausted extract rest idx hlt] at heof ⊢
              exact ih none idx (Or.inl rfl) heof
  · intro emptyPs
    induction emptyPs with
    | nil =>
      intro p rest idx _ hp
      rw [List.nil_append]
      exact patentsElementsNext_fresh extract rest idx pyFalsy_none hp
    | cons q emptyPs ih =>
      intro p rest idx hq hp
      rw [List.cons_append]
      rw [patentsElementsNext_skip extract (emptyPs ++ p :: rest) idx
        pyFalsy_none (hq q (by simp))]
      exact ih p rest (-1) (fun r hr => hq r (by simp [hr])) hp

/-- Witness for C2: two empty parents are skipped in one `Next()`, landing on
index 0 of the first non-empty parent; the invariant holds there. -/
theorem patentsElementsCursor_next_correct_witness :
    patentsElementsNext (fun n : Nat => List.range n) [0, 0, 2, 3] none (-1) =
      ⟨[2, 3], some [0, 1], 0, false⟩ := by
  have h := (patentsElementsCursor_next_correct (fun n : Nat => List.range n)).2
    [0, 0] 2 [3] (-1) (by decide) (by decide)
  simpa using h

/-! ## Child row-id packing (`PatentsIpcrCurcor.Rowid` in uspto.py) -/

/-- `PatentsIpcrCurcor.Rowid(self)`:
`(self.parent_cursor.Rowid() << 14) | self.element_index` — the comment in
the source notes that this allows for 16k elements. -/
def ipcrRowid (p c : Nat) : Nat := (p <<< 14) ||| c

/-- With the low 14 bits free, the shift-or packing is plain positional
arithmetic. -/
theorem shiftLeft_lor_eq_mul_add (p c : Nat) (h : c < 2 ^ 14) :
    (p <<< 14) ||| c = p * 2 ^ 14 + c := by
  apply Nat.eq_of_testBit_eq
  intro i
  rw [Nat.testBit_lor, Nat.testBit_shiftLeft]
  have h2 : p * 2 ^ 14 + c = 2 ^ 14 * p + c := by ring
  rw [h2, Nat.testBit_mul_pow_two_add p h i]
  by_cases hi : i < 14
  · have : ¬ (i ≥ 14) := by omega
    simp [hi, this]
  · have hge : i ≥ 14 := by omega
    have hc : c.testBit i = false := by
      apply Nat.testBit_lt_two_pow
      calc c < 2 ^ 14 := h
        _ ≤ 2 ^ i := Nat.pow_le_pow_right (by norm_num) hge
    simp [hi, hge, hc]

/-- C4.  Child row-id packing round trip: for `0 ≤ c < 2^14`, right-shifting
`(p <<< 14) ||| c` by 14 recovers `p`, masking its low 14 bits recovers `c`,
and the packing is injective on such pairs. -/
theorem ipcrRowid_roundtrip (p c : Nat) (h : c < 2 ^ 14) :
    ipcrRowid p c >>> 14 = p ∧
    ipcrRowid p c &&& (2 ^ 14 - 1) = c ∧
    (∀ p2 c2, c2 < 2 ^ 14 → ipcrRowid p c = ipcrRowid p2 c2 →
      p = p2 ∧ c = c2) := by
  have key : ∀ q d, d < 2 ^ 14 → ipcrRowid q d = q * 2 ^ 14 + d := by
    intro q d hd
    exact shiftLeft_lor_eq_mul_add q d hd
  have hshift : ∀ q d, d < 2 ^ 14 → ipcrRowid q d >>> 14 = q := by
    intro q d hd
    rw [key q d hd, Nat.shiftRight_eq_div_pow]
    norm_num
    omega
  have hmask : ∀ q d, d < 2 ^ 14 → ipcrRowid q d &&& (2 ^ 14 - 1) = d := by
    intro q d hd
    rw [Nat.and_pow_two_sub_one_eq_mod, key q d hd]
    norm_num
    omega
  refine ⟨hshift p c h, hmask p c h, ?_⟩
  intro p2 c2 h2 heq
  constructor
  · rw [← hshift p c h, ← hshift p2 c2 h2, heq]
  · rw [← hmask p c h, ← hmask p2 c2 h2, heq]

/-- Witness for C4 at the concrete pair `(3, 5)`. -/
theorem ipcrRowid_roundtrip_witness :
    (5 : Nat) < 2 ^ 14 ∧
    (ipcrRowid 3 5 >>> 14 = 3 ∧
     ipcrRowid 3 5 &&& (2 ^ 14 - 1) = 5 ∧
     (∀ p2 c2, c2 < 2 ^ 14 → ipcrRowid 3 5 = ipcrRowid p2 c2 →
       3 = p2 ∧ 5 = c2)) :=
  ⟨by norm_num, ipcrRowid_roundtrip 3 5 (by norm_num)⟩

/-! ## Container discovery (`ZipFiles.__init__` in uspto.py) -/

/-- The document-boundary marker `XML_DELIMITER` used to split the decoded
weekly XML file into per-patent chunks. -/
def XML_DELIMITER : String := "<?xml version=\"1.0\" encoding=\"UTF-8\"?>"

/-- Python's `str.endswith(suffix)`, by characters. -/
def pyEndsWith (s suff : String) : Bool := suff.data.isSuffixOf s.data

/-- Character-level worker for Python's `str.split(sep)` with a non-empty
separator: scan left to right, cutting at each non-overlapping occurrence of
`sep`; `cur` is the reversed current fragment and `fuel` bounds the number of
steps (one character is consumed per step, so `s.length` suffices). -/
def pySplitAux (sep : List Char) : Nat → List Char → List Char → List (List Char)
  | 0, s, cur => [cur.reverse ++ s]
  | fuel + 1, s, cur =>
    match s with
    | [] => [cur.reverse]
    | c :: rest =>
      if sep.isPrefixOf (c :: rest) then
        cur.reverse :: pySplitAux sep fuel ((c :: rest).drop sep.length) []
      else
        pySplitAux sep fuel rest (c :: cur)

/-- Python's `content.split(sep)` for a non-empty separator. -/
def pySplitOn (s sep : String) : List String :=
  (pySplitAux sep.data s.data.length s.data []).map (fun l => String.mk l)

/-- Attempt to match the regex `file="([^\"]+)"` at the start of `s`:
the literal `file="`, then a maximal non-empty run of non-quote characters
(the capture group), then a closing quote. -/
def matchFileAttrAt (s : List Char) : Option (List Char) :=
  if s.take 6 = "file=\"".data then
    let t := s.drop 6
    let g := t.takeWhile (fun ch => ch != '"')
    if g.length > 0 && ((t.drop g.length).take 1 = ['"']) then some g
    else none
  else none

/-- `re.search(r'file="([^"]+)"', s)`: leftmost match of the pattern,
returning the capture group. -/
def reSearchFileAttr : List Char → Option (List Char)
  | [] => none
  | c :: rest =>
    match matchFileAttrAt (c :: rest) with
    | some g => some g
    | none => reSearchFileAttr rest

/-- `re.search(pattern, self.xml_info[:200])` followed by `match.group(1)`:
search only the first 200 characters of the fragment; `none` models the
`AttributeError` raised by `match.group(1)` when there is no match. -/
def fragmentName (f : String) : Option String :=
  (reSearchFileAttr (f.data.take 200)).map (fun l => String.mk l)

/-- The two exceptions `ZipFiles.__init__` can raise while discovering
containers: the one-element unpacking `(self.file_name,) = xml_file`
fails unless the zip holds exactly one XML member, and `match.group(1)`
fails when a non-empty fragment lacks the `file="..."` attribute. -/
inductive DiscoveryError
  | memberCountNotOne (count : Nat)
  | missingFileAttr (fragment : String)
  deriving DecidableEq

/-- The fragment loop of `ZipFiles.__init__` (uspto.py lines 109-118):
empty fragments are skipped; every other fragment must yield a name, and
contributes exactly one entry to `patent_file_name` and one to
`unique_patent_xml_files`, in order. -/
def collectContainers : List String → Except DiscoveryError (List String × List String)
  | [] => .ok ([], [])
  | f :: fs =>
    if f.length = 0 then collectContainers fs
    else
      match fragmentName f with
      | none => .error (.missingFileAttr f)
      | some nm =>
        match collectContainers fs with
        | .error e => .error e
        | .ok (ns, cs) => .ok (nm :: ns, f :: cs)

/-- Processing of one zip archive by `ZipFiles.__init__`: the archive is the
list of its members as (name, decoded content) pairs; the single `.xml`
member's content is split on `XML_DELIMITER` and the fragments are
collected. -/
def zipFilesProcessArchive (archive : List (String × String)) :
    Except DiscoveryError (List String × List String) :=
  match archive.filter (fun m => pyEndsWith m.1 ".xml") with
  | [single] => collectContainers (pySplitOn single.2 XML_DELIMITER)
  | l => .error (.memberCountNotOne l.length)

/-- A non-empty fragment without the name attribute poisons the whole
collection. -/
theorem collectContainers_error_of_bad_fragment (fs : List String) (f : String)
    (hmem : f ∈ fs) (hne : f.length ≠ 0) (hnm : fragmentName f = none) :
    ∃ g, collectContainers fs = .error (.missingFileAttr g) ∧
      g.length ≠ 0 ∧ fragmentName g = none := by
  induction fs with
  | nil => cases hmem
  | cons f0 fs ih =>
    rcases List.mem_cons.mp hmem with rfl | hmem2
    · rw [collectContainers, if_neg hne, hnm]
      exact ⟨f, rfl, hne, hnm⟩
    · rw [collectContainers]
      by_cases h0 : f0.length = 0
      · rw [if_pos h0]
        exact ih hmem2
      · rw [if_neg h0]
        cases hn0 : fragmentName f0 with
        | none => exact ⟨f0, rfl, h0, hn0⟩
        | some nm =>
          rcases ih hmem2 with ⟨g, hg, hgl, hgn⟩
          rw [hg]
          exact ⟨g, rfl, hgl, hgn⟩

/-- C7.  Discovery faults are fatal: an archive whose member list holds a
number of XML members different from one makes discovery fail with a
member-count error, and an archive whose single XML member contains a
non-empty fragment whose first 200 characters lack the `file="..."`
attribute makes discovery fail with a missing-attribute error; neither case
is silently skipped. -/
theorem zipFiles_discovery_faults_fatal (archive : List (String × String)) :
    ((archive.filter (fun m => pyEndsWith m.1 ".xml")).length ≠ 1 →
      zipFilesProcessArchive archive =
        .error (.memberCountNotOne
          (archive.filter (fun m => pyEndsWith m.1 ".xml")).length)) ∧
    (∀ single, archive.filter (fun m => pyEndsWith m.1 ".xml") = [single] →
      ∀ f ∈ pySplitOn single.2 XML_DELIMITER, f.length ≠ 0 →
        fragmentName f = none →
        ∃ g, zipFilesProcessArchive archive =
          .error (.missingFileAttr g) ∧ g.length ≠ 0 ∧
          fragmentName g = none) := by
  constructor
  · intro hlen
    rw [zipFilesProcessArchive]
    cases hfil : archive.filter (fun m => pyEndsWith m.1 ".xml") with
    | nil => simp [hfil] at hlen ⊢
    | cons a l =>
      cases l with
      | nil => rw [hfil] at hlen; simp at hlen
      | cons b l2 => simp [hfil]
  · intro single hfil f hmem hne hnm
    rw [zipFilesProcessArchive, hfil]
    exact collectContainers_error_of_bad_fragment _ f hmem hne hnm

/-- Witness for C7: a zip with two XML members fails with a member-count
error, and a one-member zip whose fragment lacks the attribute fails with a
missing-attribute error. -/
theorem zipFiles_discovery_faults_fatal_witness :
    zipFilesProcessArchive [("a.xml", "x"), ("b.xml", "y")] =
      .error (.memberCountNotOne 2) ∧
    (∃ g, zipFilesProcessArchive [("a.xml", "<foo/>")] =
      .error (DiscoveryError.missingFileAttr g) ∧ g.length ≠ 0 ∧
      fragmentName g = none) := by
  constructor
  · exact (zipFiles_discovery_faults_fatal
      [("a.xml", "x"), ("b.xml", "y")]).1 (by decide)
  · exact (zipFiles_discovery_faults_fatal [("a.xml", "<foo/>")]).2
      ("a.xml", "<foo/>") (by decide) "<foo/>" (by decide) (by decide) (by decide)

/-- Successful collection keeps exactly the non-empty fragments, in order,
and produces one name per kept fragment. -/
theorem collectContainers_count (fs : List String) (ns cs : List String)
    (h : collectContainers fs = .ok (ns, cs)) :
    cs = fs.filter (fun f => f.length != 0) ∧ ns.length = cs.length := by
  induction fs generalizing ns cs with
  | nil =>
    rw [collectContainers] at h
    cases h
    simp
  | cons f fs ih =>
    rw [collectContainers] at h
    by_cases h0 : f.length = 0
    · rw [if_pos h0] at h
      rcases ih ns cs h with ⟨hcs, hlen⟩
      refine ⟨?_, hlen⟩
      rw [hcs, List.filter_cons]
      simp [h0]
    · rw [if_neg h0] at h
      cases hn : fragmentName f with
      | none => rw [hn] at h; cases h
      | some nm =>
        rw [hn] at h
        cases hrec : collectContainers fs with
        | error e => rw [hrec] at h; cases h
        | ok pair =>
          obtain ⟨ns0, cs0⟩ := pair
          rw [hrec] at h
          cases h
          rcases ih ns0 cs0 hrec with ⟨hcs, hlen⟩
          constructor
          · rw [List.filter_cons]
            simp [h0, hcs]
          · simp [hlen]

/-- C8 (counterexample).  Two fragments may carry the same `file="..."`
attribute: the archive below is accepted by discovery, yields two non-empty
fragments and two containers, yet only one *distinct* container name —
refuting the claim's count of distinct names. -/
theorem containerCount_distinct_cex :
    zipFilesProcessArchive
        [("w.xml", XML_DELIMITER ++ "<a file=\"A\"/>" ++ XML_DELIMITER ++
          "<b file=\"A\"/>")] =
      .ok (["A", "A"], ["<a file=\"A\"/>", "<b file=\"A\"/>"]) ∧
    (["A", "A"] : List String).dedup.length ≠
      ((pySplitOn (XML_DELIMITER ++ "<a file=\"A\"/>" ++ XML_DELIMITER ++
          "<b file=\"A\"/>") XML_DELIMITER).filter
        (fun f => f.length != 0)).length := by
  constructor
  · rfl
  · decide

/-- C8 (amended).  Container count invariant, counting names with
multiplicity: for every archive accepted by discovery, the container list is
exactly the list of non-empty fragments of the split member content, in
order, and the name list has the same length as the container list (one name
per non-empty fragment). -/
theorem containerCount_invariant (archive : List (String × String))
    (single : String × String) (ns cs : List String)
    (hfil : archive.filter (fun m => pyEndsWith m.1 ".xml") = [single])
    (h : zipFilesProcessArchive archive = .ok (ns, cs)) :
    cs = (pySplitOn single.2 XML_DELIMITER).filter (fun f => f.length != 0) ∧
    ns.length = cs.length ∧
    ns.length =
      ((pySplitOn single.2 XML_DELIMITER).filter
        (fun f => f.length != 0)).length := by
  rw [zipFilesProcessArchive, hfil] at h
  rcases collectContainers_count _ ns cs h with ⟨hcs, hlen⟩
  exact ⟨hcs, hlen, by rw [hlen, hcs]⟩

/-- Witness for C8 (amended) on a two-fragment archive. -/
theorem containerCount_invariant_witness :
    zipFilesProcessArchive
        [("w.xml", XML_DELIMITER ++ "<a file=\"F1\"/>" ++ XML_DELIMITER ++
          "<b file=\"F2\"/>")] =
      .ok (["F1", "F2"], ["<a file=\"F1\"/>", "<b file=\"F2\"/>"]) ∧
    (["<a file=\"F1\"/>", "<b file=\"F2\"/>"] : List String) =
      (pySplitOn (XML_DELIMITER ++ "<a file=\"F1\"/>" ++ XML_DELIMITER ++
          "<b file=\"F2\"/>") XML_DELIMITER).filter
        (fun f => f.length != 0) := by
  have h : zipFilesProcessArchive
      [("w.xml", XML_DELIMITER ++ "<a file=\"F1\"/>" ++ XML_DELIMITER ++
        "<b file=\"F2\"/>")] =
      .ok (["F1", "F2"], ["<a file=\"F1\"/>", "<b file=\"F2\"/>"]) := by rfl
  refine ⟨h, ?_⟩
  exact (containerCount_invariant _
    ("w.xml", XML_DELIMITER ++ "<a file=\"F1\"/>" ++ XML_DELIMITER ++
      "<b file=\"F2\"/>") _ _ (by decide) h).1

/-! ## Container cursor (`XMLChunkCursor` in uspto.py) -/

/-- Modelled from the spec: the index hint decoded by `Filter`.  The bit
constant `CONTAINER_INDEX` lives in the module `alexandria3k.data_source`,
which is outside the shown sources; per the spec, an index number of 0
requests a full scan and the `CONTAINER_INDEX` bit requests a
single-container lookup whose pinned index is `constraint_args[0]`. -/
inductive FilterIndex
  | fullScan
  | containerIndex (k : Nat)
  deriving DecidableEq

/-- State of an `XMLChunkCursor`.  The Python attributes `file_index`,
`single_file`, `file_read` and `element_tree` start as `None` and are
initialised in `Filter()`; `None` is modelled by `-1` / `false` / `none`,
which have the same truthiness in every use site. -/
structure XMLChunkCursor (τ : Type) where
  eof : Bool
  file_index : Int
  single_file : Bool
  file_read : Bool
  element_tree : Option τ
  deriving DecidableEq

/-- `XMLChunkCursor.__init__`. -/
def XMLChunkCursor.init (τ : Type) : XMLChunkCursor τ :=
  { eof := false, file_index := -1, single_file := false, file_read := false,
    element_tree := none }

/-- `XMLChunkCursor.Next(self)` (uspto.py lines 199-217).  `data_source` is
the table's list of XML chunks, and the global file cache is threaded
through explicitly. -/
def xmlChunkNext {τ : Type} (parse : String → τ) (data_source : List String)
    (c : XMLChunkCursor τ) (cache : FileCache τ) :
    XMLChunkCursor τ × FileCache τ :=
  if c.single_file && c.file_read then
    ({ c with eof := true }, cache)
  else if c.file_index + 1 ≥ (data_source.length : Int) then
    ({ c with eof := true }, cache)
  else
    let idx := c.file_index + 1
    let r := FileCache.read parse cache (data_source.getD idx.toNat "") idx.toNat
    ({ c with file_index := idx, element_tree := r.1, eof := false,
              file_read := true }, r.2)

/-- `XMLChunkCursor.Filter(self, index_number, _index_name, constraint_args)`
(uspto.py lines 185-197): initialise the iteration state according to the
index hint, then call `Next()`. -/
def xmlChunkFilter {τ : Type} (parse : String → τ) (data_source : List String)
    (c : XMLChunkCursor τ) (idx : FilterIndex) (cache : FileCache τ) :
    XMLChunkCursor τ × FileCache τ :=
  match idx with
  | .fullScan =>
    xmlChunkNext parse data_source
      { c with file_index := -1, single_file := false } cache
  | .containerIndex k =>
    xmlChunkNext parse data_source
      { c with single_file := true, file_read := false,
               file_index := (k : Int) - 1 } cache

/-- `XMLChunkCursor.Rowid(self)`. -/
def XMLChunkCursor.Rowid {τ : Type} (c : XMLChunkCursor τ) : Int :=
  c.file_index

/-- Characterisation of positioning with a pinned in-range container index:
the cursor lands exactly on container `k` and the document is fetched
through the cache. -/
theorem xmlChunkFilter_pinned {τ : Type} (parse : String → τ)
    (data : List String) (c : XMLChunkCursor τ) (cache : FileCache τ)
    (k : Nat) (hk : k < data.length) :
    xmlChunkFilter parse data c (.containerIndex k) cache =
      ({ c with eof := false, file_index := (k : Int), single_file := true,
                file_read := true,
                element_tree :=
                  (FileCache.read parse cache (data.getD k "") k).1 },
       (FileCache.read parse cache (data.getD k "") k).2) := by
  rw [xmlChunkFilter, xmlChunkNext]
  have h1 : (k : Int) - 1 + 1 = (k : Int) := by omega
  have h2 : ((k : Int)).toNat = k := by omega
  have h3 : ¬ ((k : Int) ≥ (data.length : Int)) := by omega
  simp [h1, h2, h3]

/-- C5.  Single-container positioning: positioning the container cursor with
a pinned in-range index `k` lands on container `k` with its document fetched
through the cache, and the following advance transitions the cursor to
exhaustion — one container exactly, for every container list. -/
theorem xmlChunk_single_container {τ : Type} (parse : String → τ)
    (data : List String) (c : XMLChunkCursor τ) (cache : FileCache τ)
    (k : Nat) (hk : k < data.length) :
    ((xmlChunkFilter parse data c (.containerIndex k) cache).1.eof = false) ∧
    ((xmlChunkFilter parse data c (.containerIndex k) cache).1.Rowid =
      (k : Int)) ∧
    ((xmlChunkFilter parse data c (.containerIndex k) cache).1.element_tree =
      (FileCache.read parse cache (data.getD k "") k).1) ∧
    ((xmlChunkFilter parse data c (.containerIndex k) cache).2 =
      (FileCache.read parse cache (data.getD k "") k).2) ∧
    ((xmlChunkNext parse data
        (xmlChunkFilter parse data c (.containerIndex k) cache).1
        (xmlChunkFilter parse data c (.containerIndex k) cache).2).1.eof =
      true) := by
  rw [xmlChunkFilter_pinned parse data c cache k hk]
  refine ⟨rfl, rfl, rfl, rfl, ?_⟩
  rw [xmlChunkNext]
  simp

/-- Witness for C5 over a three-chunk source pinned at index 1. -/
theorem xmlChunk_single_container_witness :
    ((xmlChunkFilter String.length ["a", "bb", "ccc"] (XMLChunkCursor.init Nat)
        (.containerIndex 1) (FileCache.init Nat)).1.eof = false) ∧
    ((xmlChunkFilter String.length ["a", "bb", "ccc"] (XMLChunkCursor.init Nat)
        (.containerIndex 1) (FileCache.init Nat)).1.Rowid = (1 : Int)) ∧
    ((xmlChunkFilter String.length ["a", "bb", "ccc"] (XMLChunkCursor.init Nat)
        (.containerIndex 1) (FileCache.init Nat)).1.element_tree =
      (FileCache.read String.length (FileCache.init Nat)
        (["a", "bb", "ccc"].getD 1 "") 1).1) ∧
    ((xmlChunkFilter String.length ["a", "bb", "ccc"] (XMLChunkCursor.init Nat)
        (.containerIndex 1) (FileCache.init Nat)).2 =
      (FileCache.read String.length (FileCache.init Nat)
        (["a", "bb", "ccc"].getD 1 "") 1).2) ∧
    ((xmlChunkNext String.length ["a", "bb", "ccc"]
        (xmlChunkFilter String.length ["a", "bb", "ccc"]
          (XMLChunkCursor.init Nat) (.containerIndex 1) (FileCache.init Nat)).1
        (xmlChunkFilter String.length ["a", "bb", "ccc"]
          (XMLChunkCursor.init Nat) (.containerIndex 1)
          (FileCache.init Nat)).2).1.eof = true) :=
  xmlChunk_single_container String.length ["a", "bb", "ccc"]
    (XMLChunkCursor.init Nat) (FileCache.init Nat) 1 (by norm_num)

/-- C10.  Out-of-range pinned index: positioning with `k ≥` the container
count raises no error; the cursor immediately reports Eof, no document is
fetched and the cache is untouched. -/
theorem xmlChunk_single_container_out_of_range {τ : Type}
    (parse : String → τ) (data : List String) (c : XMLChunkCursor τ)
    (cache : FileCache τ) (k : Nat) (hk : data.length ≤ k) :
    xmlChunkFilter parse data c (.containerIndex k) cache =
      ({ c with eof := true, single_file := true, file_read := false,
                file_index := (k : Int) - 1 }, cache) := by
  rw [xmlChunkFilter, xmlChunkNext]
  rw [if_neg (by simp)]
  rw [if_pos (by simp only; omega)]

/-- Witness for C10: pinning index 5 over a two-chunk source. -/
theorem xmlChunk_single_container_out_of_range_witness :
    xmlChunkFilter String.length ["a", "bb"] (XMLChunkCursor.init Nat)
        (.containerIndex 5) (FileCache.init Nat) =
      ({ eof := true, file_index := 4, single_file := true, file_read := false,
         element_tree := none }, FileCache.init Nat) := by
  have h := xmlChunk_single_container_out_of_range String.length ["a", "bb"]
    (XMLChunkCursor.init Nat) (FileCache.init Nat) 5 (by norm_num)
  simpa [XMLChunkCursor.init] using h

/-! ## Root-entity cursor (`PatentsCursor` in uspto.py) -/

/-- State of a `PatentsCursor`: the wrapped `XMLChunkCursor` plus the
root-level `eof` and `item_index` attributes. -/
structure PatentsCursor (τ : Type) where
  eof : Bool
  item_index : Int
  files_cursor : XMLChunkCursor τ
  deriving DecidableEq

/-- `PatentsCursor.__init__`. -/
def PatentsCursor.init (τ : Type) : PatentsCursor τ :=
  { eof := false, item_index := -1, files_cursor := XMLChunkCursor.init τ }

/-- `PatentsCursor.Rowid(self)`: returns `self.item_index`. -/
def PatentsCursor.Rowid {τ : Type} (c : PatentsCursor τ) : Int :=
  c.item_index

/-- `PatentsCursor.container_id(self)`: returns `self.files_cursor.Rowid()`. -/
def PatentsCursor.container_id {τ : Type} (c : PatentsCursor τ) : Int :=
  c.files_cursor.Rowid

/-- `PatentsCursor.Filter(...)` for the non-`ROWID_INDEX` hints: delegate to
the files cursor, copy its Eof flag, and set `item_index = 0`. -/
def patentsFilter {τ : Type} (parse : String → τ) (data : List String)
    (c : PatentsCursor τ) (idx : FilterIndex) (cache : FileCache τ) :
    PatentsCursor τ × FileCache τ :=
  let r := xmlChunkFilter parse data c.files_cursor idx cache
  ({ eof := r.1.eof, item_index := 0, files_cursor := r.1 }, r.2)

/-- `PatentsCursor.Next(self)` (uspto.py lines 320-324): reset `item_index`
to 0, advance the files cursor, copy its Eof flag. -/
def patentsNext {τ : Type} (parse : String → τ) (data : List String)
    (c : PatentsCursor τ) (cache : FileCache τ) :
    PatentsCursor τ × FileCache τ :=
  let r := xmlChunkNext parse data c.files_cursor cache
  ({ eof := r.1.eof, item_index := 0, files_cursor := r.1 }, r.2)

/-- C3 (code bug).  `PatentsCursor.Next` unconditionally resets `item_index`
to 0, so `Rowid()` returns 0 for every row of a full scan instead of the
container's ordinal index: in a two-container scan the cursor sits on
container 1 (not Eof) while `Rowid()` still returns 0, contradicting the
claim, the method's own docstring ("a unique id of the row along all
records") and the uniqueness the child-row-id packing relies on. -/
theorem patentsCursor_rowid_stuck_at_zero :
    (∀ (τ : Type) (parse : String → τ) (data : List String)
      (c : PatentsCursor τ) (cache : FileCache τ),
      ((patentsNext parse data c cache).1).Rowid = 0) ∧
    ((patentsNext String.length ["a", "bb"]
        (patentsFilter String.length ["a", "bb"] (PatentsCursor.init Nat)
          .fullScan (FileCache.init Nat)).1
        (patentsFilter String.length ["a", "bb"] (PatentsCursor.init Nat)
          .fullScan (FileCache.init Nat)).2).1.eof = false ∧
     (patentsNext String.length ["a", "bb"]
        (patentsFilter String.length ["a", "bb"] (PatentsCursor.init Nat)
          .fullScan (FileCache.init Nat)).1
        (patentsFilter String.length ["a", "bb"] (PatentsCursor.init Nat)
          .fullScan (FileCache.init Nat)).2).1.files_cursor.Rowid = 1 ∧
     (patentsNext String.length ["a", "bb"]
        (patentsFilter String.length ["a", "bb"] (PatentsCursor.init Nat)
          .fullScan (FileCache.init Nat)).1
        (patentsFilter String.length ["a", "bb"] (PatentsCursor.init Nat)
          .fullScan (FileCache.init Nat)).2).1.Rowid = 0) := by
  refine ⟨fun τ parse data c cache => rfl, ?_, ?_, ?_⟩ <;> rfl

/-! ## Child foreign-key column (`PatentsIpcrCurcor.Column` in uspto.py) -/

/-- A dynamically-typed SQL value as handed to the query engine. -/
inductive SQLValue
  | int (i : Int)
  | str (s : String)
  | null
  deriving DecidableEq

/-- `ZipFiles.get_container_name(self, fid)`:
`return self.patent_file_name[fid]`. -/
def getContainerName (patent_file_name : List String) (fid : Nat) : String :=
  patent_file_name.getD fid ""

/-- `PatentsIpcrCurcor.Column(self, col)` at the foreign-key ordinal
`col == 2` (the `patent_id` column): `return self.parent_cursor.container_id()`
— an integer SQL value. -/
def ipcrColumnPatentId {τ : Type} (parent : PatentsCursor τ) : SQLValue :=
  .int parent.container_id

/-- C6 (counterexample).  On an archive whose containers are named
`F1`/`F2`, position the parent on container 1: the child's `patent_id`
column is the integer container ordinal 1, whereas the parent's container
display name is the string `"F2"` — the two are different SQL values, so the
foreign-key column does not equal the display name. -/
theorem ipcr_patent_id_cex :
    zipFilesProcessArchive
        [("w.xml", XML_DELIMITER ++ "<a file=\"F1\"/>" ++ XML_DELIMITER ++
          "<b file=\"F2\"/>")] =
      .ok (["F1", "F2"], ["<a file=\"F1\"/>", "<b file=\"F2\"/>"]) ∧
    getContainerName ["F1", "F2"] 1 = "F2" ∧
    ipcrColumnPatentId
        (patentsFilter String.length ["<a file=\"F1\"/>", "<b file=\"F2\"/>"]
          (PatentsCursor.init Nat) (.containerIndex 1)
          (FileCache.init Nat)).1 = SQLValue.int 1 ∧
    SQLValue.int 1 ≠ SQLValue.str "F2" :=
  ⟨rfl, rfl, rfl, by decide⟩

/-- C6 (amended).  The child foreign-key column (`patent_id`, ordinal 2)
resolves to the parent's container ordinal id (the container cursor's
`Rowid()`, i.e. `file_index`), not to the parent's row id: with the parent
positioned on container `k`, the column value is the integer `k`, while the
parent's `Rowid()` is 0. -/
theorem ipcr_patent_id_resolves_to_container {τ : Type} (parse : String → τ)
    (data : List String) (cache : FileCache τ) (k : Nat)
    (hk : k < data.length) :
    ipcrColumnPatentId
        (patentsFilter parse data (PatentsCursor.init τ) (.containerIndex k)
          cache).1 = SQLValue.int (k : Int) ∧
    (patentsFilter parse data (PatentsCursor.init τ) (.containerIndex k)
        cache).1.Rowid = 0 := by
  rw [patentsFilter]
  have h := xmlChunkFilter_pinned parse data (XMLChunkCursor.init τ) cache k hk
  constructor
  · rw [ipcrColumnPatentId]
    simp only [PatentsCursor.init, h]
    rfl
  · rfl

/-- Witness for C6 (amended) at container index 1 of a two-chunk source. -/
theorem ipcr_patent_id_resolves_to_container_witness :
    ipcrColumnPatentId
        (patentsFilter String.length ["a", "bb"] (PatentsCursor.init Nat)
          (.containerIndex 1) (FileCache.init Nat)).1 =
      SQLValue.int (1 : Int) ∧
    (patentsFilter String.length ["a", "bb"] (PatentsCursor.init Nat)
        (.containerIndex 1) (FileCache.init Nat)).1.Rowid = 0 :=
  ipcr_patent_id_resolves_to_container String.length ["a", "bb"]
    (FileCache.init Nat) 1 (by norm_num)

/-! ## Flat-source cursor (`CsvCursor` in csv_sources.py) -/

/-- State of a `CsvCursor`: `eof`, `item_index`, the last `row_value`
(`None` before the first `Next`), and the underlying `csv.reader` modelled
as the list of records it has yet to yield. -/
structure CsvCursor where
  eof : Bool
  item_index : Int
  row_value : Option (List String)
  reader : List (List String)
  deriving DecidableEq

/-- `CsvCursor.__init__`. -/
def CsvCursor.init : CsvCursor :=
  { eof := false, item_index := -1, row_value := none, reader := [] }

/-- `CsvCursor.Next(self)` (csv_sources.py lines 119-125):
`row_value = next(reader, None)`; `if not row_value:` sets Eof (this is
Python truthiness, so the empty record `[]` — a blank line — also ends the
iteration), otherwise the row id advances by one. -/
def csvNext (c : CsvCursor) : CsvCursor :=
  match c.reader with
  | [] => { c with row_value := none, eof := true }
  | r :: rest =>
    if r = [] then { c with row_value := some r, reader := rest, eof := true }
    else { c with row_value := some r, reader := rest,
                  item_index := c.item_index + 1 }

/-- `CsvCursor.Filter(...)` (csv_sources.py lines 105-117): reset the state,
open the reader over the input records, skip exactly one header line
(`next(self.reader, None)`), then call `Next()` to move to the first row. -/
def csvFilter (input : List (List String)) (c : CsvCursor) : CsvCursor :=
  csvNext { c with eof := false, item_index := -1, reader := input.drop 1 }

/-- The full scan driven by the query engine: read the current row and
advance until the cursor reports Eof; each emitted pair is
(`Rowid()`, `row_value`). -/
def csvRows (c : CsvCursor) : List (Int × Option (List String)) :=
  if h : c.eof = true then []
  else (c.item_index, c.row_value) :: csvRows (csvNext c)
termination_by c.reader.length + (if c.eof then 0 else 1)
decreasing_by
  cases hr : c.reader with
  | nil => simp [csvNext, h, hr]
  | cons r rest =>
    by_cases he : r = [] <;> simp [csvNext, h, hr, he] <;> omega

/-- Running the scan loop from a freshly-read row over non-empty pending
records yields one row per record with consecutive row ids. -/
theorem csvRows_run (rows : List (List String)) :
    ∀ (k : Int) (v : Option (List String)), (∀ r ∈ rows, r ≠ []) →
    csvRows { eof := false, item_index := k, row_value := v, reader := rows } =
      (k, v) :: (List.range rows.length).map
        (fun i : Nat => (k + 1 + (i : Int), some (rows.getD i []))) := by
  induction rows with
  | nil =>
    intro k v _
    rw [csvRows]
    rw [dif_neg (by simp)]
    rw [csvRows]
    simp [csvNext]
  | cons r rest ih =>
    intro k v hne
    have hr : r ≠ [] := hne r (by simp)
    rw [csvRows]
    rw [dif_neg (by simp)]
    have hnext : csvNext { eof := false, item_index := k, row_value := v,
                           reader := r :: rest } =
        { eof := false, item_index := k + 1, row_value := some r,
          reader := rest } := by
      simp [csvNext, hr]
    rw [hnext, ih (k + 1) (some r) (fun q hq => hne q (by simp [hq]))]
    simp only [List.length_cons, List.range_succ_eq_map, List.map_cons,
      List.map_map]
    congr 1
    all_goals simp
    all_goals intro a ha
    all_goals omega

/-- C9 (counterexample).  With records `["a"], [], ["b"]` after the header,
the cursor reads the blank record `[]` (falsy in Python) and reports Eof
while the underlying reader still holds `["b"]` and has not signalled end of
input — refuting "Eof exactly when the underlying reader signals end of
input". -/
theorem csvCursor_blank_cex :
    (csvNext (csvFilter [["h"], ["a"], [], ["b"]] CsvCursor.init)).eof = true ∧
    (csvNext (csvFilter [["h"], ["a"], [], ["b"]] CsvCursor.init)).reader =
      [["b"]] ∧
    (csvFilter [["h"], ["a"], [], ["b"]] CsvCursor.init).item_index = 0 :=
  ⟨rfl, rfl, rfl⟩

/-- C9 (amended).  For every delimited input whose records are all
non-empty, `Filter` skips exactly one header line, the scan yields one row
per record with row ids `0, 1, 2, …` in order, and Eof is reached exactly
when the reader signals end of input (in general, iteration also ends early
at the first empty record — see the counterexample). -/
theorem csvCursor_scan (header : List String) (records : List (List String))
    (hne : ∀ r ∈ records, r ≠ []) :
    csvRows (csvFilter (header :: records) CsvCursor.init) =
      (List.range records.length).map
        (fun i : Nat => ((i : Int), some (records.getD i []))) := by
  rw [csvFilter]
  cases records with
  | nil =>
    rw [csvRows]
    simp [csvNext, CsvCursor.init]
  | cons r rest =>
    have hr : r ≠ [] := hne r (by simp)
    have hnext : csvNext
        { CsvCursor.init with
            eof := false
            item_index := -1
            reader := (header :: r :: rest).drop 1 } =
        { eof := false, item_index := 0, row_value := some r,
          reader := rest } := by
      simp [csvNext, CsvCursor.init, hr]
    rw [hnext, csvRows_run rest 0 (some r)
      (fun q hq => hne q (by simp [hq]))]
    simp only [List.length_cons, List.range_succ_eq_map, List.map_cons,
      List.map_map]
    congr 1
    all_goals simp
    all_goals intro a ha
    all_goals omega

/-- Witness for C9 (amended): two records after the header give rows with
ids 0 and 1. -/
theorem csvCursor_scan_witness :
    csvRows (csvFilter [["h"], ["a"], ["b"]] CsvCursor.init) =
      [(0, some ["a"]), (1, some ["b"])] := by
  have h := csvCursor_scan ["h"] [["a"], ["b"]] (by decide)
  rw [h]
  decide

end Alexandria3k
